import Mathlib

/-!
Verification development for the RAK Porcelain chatbot backend.

The repository is an Express/TypeScript backend performing retrieval-augmented
generation.  External collaborators (OpenAI embedding API, OpenAI chat
completion API, the Supabase vector-search RPC and tables) are modelled as
oracle functions returning `Except String _`; a thrown JS exception is the
`.error` case.  JS strings are modelled as Lean `String` (and, for the
character-level chunking helper, as `List Char`).  JS numbers that only ever
flow through comparisons (similarity scores) are modelled as `Rat`.
Request-body fields are modelled as `Option String`: `none` covers an absent
or non-string field, and the JS falsiness test `!x` on a string field is
`none` or `some ""`.
-/

/-- JS truthiness of an optional string field: `undefined`/`null`/missing and
the empty string are falsy, every other string is truthy. -/
def truthy (v : Option String) : Bool :=
  match v with
  | none => false
  | some s => !(s == "")

/-- A single apostrophe character, used to spell string literals from the
source verbatim. -/
def apos : String := String.singleton (Char.ofNat 39)

/-- `RetrievedDocument` from `src/backend/src/lib/retrieval.ts` (lines 4-11).
The `metadata : any` blob is modelled opaquely as an optional string, no code
relevant to the claims ever reads it. -/
structure RetrievedDocument where
  product_id : String
  source_type : String
  source_id : Option String
  text_snippet : String
  similarity : Rat
  metadata : Option String := none
deriving DecidableEq

/-- The `doc.source_id ? `, ID: ...` : ''` template fragment of
`buildContextText` (retrieval.ts line 159): JS truthiness makes both `null`
and the empty string render nothing. -/
def renderSourceId (sid : Option String) : String :=
  match sid with
  | none => ""
  | some s => if s = "" then "" else ", ID: " ++ s

/-- `buildContextText` from `src/backend/src/lib/retrieval.ts` (lines 156-163):
each document becomes a bracketed provenance tag followed on the next line by
its text snippet, and documents are joined by blank lines. -/
def buildContextText (docs : List RetrievedDocument) : String :=
  String.intercalate "\n\n"
    (docs.map (fun doc =>
      "[Product: " ++ doc.product_id ++ ", Source: " ++ doc.source_type
        ++ renderSourceId doc.source_id ++ "]" ++ "\n" ++ doc.text_snippet))

/-- Rendering of one document as the spec words it (section 8 of the spec,
amended): the tag is the comma-separated field list
`Product: <id>`, `Source: <type>`, and - only when a source id is present and
non-empty - `ID: <id>`, wrapped in brackets, with the snippet on the next
line. -/
def specDocBlock (doc : RetrievedDocument) : String :=
  "[" ++ String.intercalate ", "
      (["Product: " ++ doc.product_id, "Source: " ++ doc.source_type]
        ++ (match doc.source_id with
            | none => []
            | some s => if s = "" then [] else ["ID: " ++ s]))
    ++ "]" ++ "\n" ++ doc.text_snippet

/-- The context assembler as the spec words it: spec-side rendering of every
document, joined by blank lines. -/
def specContextText (docs : List RetrievedDocument) : String :=
  String.intercalate "\n\n" (docs.map specDocBlock)

/-- Substring test on Lean strings (used to state that an output does not
contain the literal `, ID: ` marker required by the claimed tag format). -/
def containsSubstr (s pat : String) : Bool :=
  decide (pat.toList <:+: s.toList)

theorem intercalate_pair (a b : String) :
    String.intercalate ", " [a, b] = a ++ ", " ++ b := by
  simp [String.intercalate, String.intercalate.go]

theorem intercalate_triple (a b c : String) :
    String.intercalate ", " [a, b, c] = a ++ ", " ++ b ++ ", " ++ c := by
  simp [String.intercalate, String.intercalate.go]

/-- An embedding vector returned by the OpenAI embeddings API. -/
abbrev Embedding := List Rat

/-- Number of external calls a single request handling performed, one counter
per collaborator: embedding API, vector-search RPC, chat completion API, and
the conversations-table write. -/
structure Trace where
  embedCalls : Nat
  rpcCalls : Nat
  genCalls : Nat
  saveCalls : Nat
deriving DecidableEq

/-- A provenance entry of a chat response.  The two `/api/chat` handlers emit
different shapes (`routes/chat.js` includes `source_id`, `server-fixed.ts`
includes a truncated `text_snippet` instead), so both optional fields
appear here. -/
structure ProvItem where
  product_id : String
  source_type : String
  source_id : Option String := none
  text_snippet : Option String := none
  similarity : Rat
deriving DecidableEq

/-- The `retrieved_docs` field of a chat response body: `routes/chat.js`
returns the empty array in the escalation branch and `docs.length` (a number)
in the success branch. -/
inductive RetrievedField where
  | emptyArr : RetrievedField
  | count (n : Nat) : RetrievedField
deriving DecidableEq

/-- Success body of a `POST /api/chat` response. -/
structure ChatBody where
  answer : String
  provenance : List ProvItem
  retrieved : RetrievedField
deriving DecidableEq

/-- HTTP outcome of a `POST /api/chat` request. -/
inductive ChatResp where
  | ok (body : ChatBody) : ChatResp
  | badRequest (msg : String) : ChatResp
  | serverError : ChatResp
deriving DecidableEq

/-- HTTP status code of a chat response. -/
def statusCode : ChatResp → Nat
  | .ok _ => 200
  | .badRequest _ => 400
  | .serverError => 500

/-- The answer string of a chat response, when the response is a 200. -/
def answerOf : ChatResp → Option String
  | .ok b => some b.answer
  | _ => none

/-- Request body of `POST /api/chat`: `{ message, sessionId }`. -/
structure ChatReq where
  message : Option String
  sessionId : Option String

/-- Record inserted by `saveConversation` from `routes/chat.js`
(lines 63-73). -/
structure ChatSaveRecord where
  session_id : String
  user_message : String
  assistant_response : String
  retrieved_docs : List ProvItem

/-- Record inserted by `saveConversation` from `server-fixed.ts`
(lines 192-197). -/
structure FixedSaveRecord where
  session_id : String
  user_message : String
  assistant_message : String
  provenance : List RetrievedDocument

/-- External collaborators of the `routes/chat.js` handler. -/
structure ChatOracles where
  embed : String → Except String Embedding
  rpc : Embedding → Nat → Except String (List RetrievedDocument)
  gen : String → String → Except String String
  save : ChatSaveRecord → Except String Unit

/-- External collaborators of the `server-fixed.ts` handler. -/
structure FixedOracles where
  embed : String → Except String Embedding
  rpc : Embedding → Nat → Except String (List RetrievedDocument)
  gen : String → String → Except String String
  save : FixedSaveRecord → Except String Unit

/-- `retrieveRelevantDocs` from `retrieval.ts` (lines 19-42): one embedding
call, then one `match_embeddings` RPC, each failure rethrown wrapped.  The
second component records the external calls performed. -/
def retrieveRelevantDocs
    (embed : String → Except String Embedding)
    (rpc : Embedding → Nat → Except String (List RetrievedDocument))
    (query : String) (topK : Nat) :
    Except String (List RetrievedDocument) × Trace :=
  match embed query with
  | .error e =>
      (.error ("Failed to retrieve relevant documents: " ++ e),
        ⟨1, 0, 0, 0⟩)
  | .ok emb =>
      match rpc emb topK with
      | .error e =>
          (.error ("Failed to retrieve relevant documents: Vector search error: " ++ e),
            ⟨1, 1, 0, 0⟩)
      | .ok docs => (.ok docs, ⟨1, 1, 0, 0⟩)

/-- The fixed escalation string of `routes/chat.js` line 45, byte for byte
(the apostrophe is assembled explicitly). -/
def escalationMessage : String :=
  "I don" ++ apos ++ "t have that information — would you like me to escalate to an admin?"

/-- The user-turn content assembled by both handlers:
`Context:\n<context>\n\nUser question: <message>`. -/
def mkUserContent (contextText message : String) : String :=
  "Context:\n" ++ contextText ++ "\n\nUser question: " ++ message

/-- Provenance entry emitted by `routes/chat.js` (lines 82-87): product id,
source type, source id and similarity. -/
def provOfDoc (d : RetrievedDocument) : ProvItem :=
  { product_id := d.product_id
    source_type := d.source_type
    source_id := d.source_id
    text_snippet := none
    similarity := d.similarity }

/-- The `POST /api/chat` handler of `routes/chat.js` (lines 27-98), as a pure
function of its request and its external collaborators.  Returns the HTTP
outcome together with the trace of external calls. -/
def chatPost (o : ChatOracles) (systemPrompt : String) (req : ChatReq) :
    ChatResp × Trace :=
  if truthy req.message = false then
    (.badRequest "Message is required and must be a string", ⟨0, 0, 0, 0⟩)
  else if truthy req.sessionId = false then
    (.badRequest "Session ID is required and must be a string", ⟨0, 0, 0, 0⟩)
  else
    let m := req.message.getD ""
    let s := req.sessionId.getD ""
    match retrieveRelevantDocs o.embed o.rpc m 5 with
    | (.error _, t) => (.serverError, t)
    | (.ok docs, t) =>
      if docs.isEmpty then
        (.ok { answer := escalationMessage, provenance := [], retrieved := .emptyArr }, t)
      else
        let contextText := buildContextText docs
        match o.gen systemPrompt (mkUserContent contextText m) with
        | .error _ => (.serverError, { t with genCalls := 1 })
        | .ok answer =>
          let record : ChatSaveRecord :=
            { session_id := s
              user_message := m
              assistant_response := answer
              retrieved_docs := docs.map provOfDoc }
          -- the save result is only logged; the response is built either way
          -- (chat.js lines 61-78)
          let _saved := o.save record
          (.ok { answer := answer
                 provenance := docs.map provOfDoc
                 retrieved := .count docs.length },
            { t with genCalls := 1, saveCalls := 1 })

/-- The environment flags the `server-fixed.ts` handler checks before doing
any external work (line 148). -/
structure FixedEnv where
  openai_api_key : Option String
  supabase_url : Option String

/-- The placeholder answer of `server-fixed.ts` lines 149-154, returned when
the environment is not configured. -/
def setupMessage : String :=
  "I" ++ apos ++ "m the RAK Porcelain AI Assistant! I" ++ apos
    ++ "m currently being set up. Please configure your Supabase database and OpenAI API key to enable full functionality."

/-- Provenance entry emitted by `server-fixed.ts` (lines 202-207): product id,
source type, the first 100 characters of the snippet with a `...` marker, and
similarity. -/
def provOfDocFixed (d : RetrievedDocument) : ProvItem :=
  { product_id := d.product_id
    source_type := d.source_type
    source_id := none
    text_snippet := some (d.text_snippet.take 100 ++ "...")
    similarity := d.similarity }

/-- The `POST /api/chat` handler of `server-fixed.ts` (lines 137-218).  Unlike
`routes/chat.js` it has no empty-retrieval escalation branch, and its
`saveConversation` call (lines 191-198) is not wrapped in its own try/catch,
so a failed write falls through to the outer catch and becomes a 500. -/
def serverFixedChatPost (o : FixedOracles) (env : FixedEnv)
    (systemPrompt : String) (req : ChatReq) : ChatResp × Trace :=
  if truthy req.message = false then
    (.badRequest "Message is required", ⟨0, 0, 0, 0⟩)
  else if truthy env.openai_api_key = false ∨ truthy env.supabase_url = false then
    (.ok { answer := setupMessage, provenance := [], retrieved := .count 0 },
      ⟨0, 0, 0, 0⟩)
  else
    let m := req.message.getD ""
    match retrieveRelevantDocs o.embed o.rpc m 5 with
    | (.error _, t) => (.serverError, t)
    | (.ok docs, t) =>
      let contextText := buildContextText docs
      match o.gen systemPrompt (mkUserContent contextText m) with
      | .error _ => (.serverError, { t with genCalls := 1 })
      | .ok answer =>
        if truthy req.sessionId then
          match o.save { session_id := req.sessionId.getD ""
                         user_message := m
                         assistant_message := answer
                         provenance := docs } with
          | .error _ => (.serverError, { t with genCalls := 1, saveCalls := 1 })
          | .ok _ =>
              (.ok { answer := answer
                     provenance := docs.map provOfDocFixed
                     retrieved := .count docs.length },
                { t with genCalls := 1, saveCalls := 1 })
        else
          (.ok { answer := answer
                 provenance := docs.map provOfDocFixed
                 retrieved := .count docs.length },
            { t with genCalls := 1 })

theorem specDocBlock_eq (doc : RetrievedDocument) :
    specDocBlock doc =
      "[Product: " ++ doc.product_id ++ ", Source: " ++ doc.source_type
        ++ renderSourceId doc.source_id ++ "]" ++ "\n" ++ doc.text_snippet := by
  rcases doc with ⟨pid, sty, sid, snip, sim, md⟩
  cases sid with
  | none =>
      simp only [specDocBlock, renderSourceId, List.append_nil, intercalate_pair]
      apply String.ext
      simp [String.data_append, List.append_assoc]
  | some s =>
      by_cases hs : s = ""
      · simp only [specDocBlock, renderSourceId, hs, ite_true, List.append_nil,
          intercalate_pair]
        apply String.ext
        simp [String.data_append, List.append_assoc]
      · simp only [specDocBlock, renderSourceId, hs, ite_false, List.cons_append,
          List.nil_append, intercalate_triple]
        apply String.ext
        simp [String.data_append, List.append_assoc]

/-- A row of the `conversations` table as the messages router reads it:
id and owning user. -/
structure ConvRow where
  id : String
  user_id : String
deriving DecidableEq

/-- A row of the `messages` table (`routes/messages.ts`): the database
assigns `id` and `created_at`. -/
structure MsgRow where
  id : Nat
  conversation_id : String
  role : String
  content : String
  created_at : Nat
deriving DecidableEq

/-- The relational state the messages router touches, with a fresh-id counter
and a clock supplying `created_at` values in insertion order. -/
structure MsgDB where
  convs : List ConvRow
  msgs : List MsgRow
  nextId : Nat
  clock : Nat
deriving DecidableEq

/-- The message shape both messages endpoints respond with:
`{ id, role, content, timestamp }` (`routes/messages.ts` lines 40-45 and
99-104). -/
structure MsgOut where
  id : Nat
  role : String
  content : String
  timestamp : Nat
deriving DecidableEq

/-- HTTP outcome of a messages-router request. -/
inductive MsgResp where
  | ok (msgs : List MsgOut) : MsgResp
  | created (m : MsgOut) : MsgResp
  | badRequest (msg : String) : MsgResp
  | unauthorized : MsgResp
  | notFound : MsgResp
deriving DecidableEq

/-- HTTP status code of a messages-router response. -/
def msgStatus : MsgResp → Nat
  | .ok _ => 200
  | .created _ => 201
  | .badRequest _ => 400
  | .unauthorized => 401
  | .notFound => 404

/-- The ownership check both messages handlers run: select the conversation
by id and user id with `.single()`, which succeeds exactly when one row
matches. -/
def ownedConv (db : MsgDB) (cid uid : String) : Bool :=
  (db.convs.filter (fun c => c.id == cid && c.user_id == uid)).length == 1

/-- The valid roles of `routes/messages.ts` line 67. -/
def validRoles : List String := ["user", "assistant", "system"]

/-- `POST /` of `routes/messages.ts` (lines 54-110): auth check, required
fields, role whitelist, conversation ownership, then the insert.  Returns the
response and the resulting database state. -/
def messagesPost (db : MsgDB) (userId conversationId role content : Option String) :
    MsgResp × MsgDB :=
  if truthy userId = false then (.unauthorized, db)
  else if (!truthy conversationId || !truthy role || !truthy content) then
    (.badRequest "Conversation ID, role, and content are required", db)
  else
    let r := role.getD ""
    if (validRoles.contains r) = false then
      (.badRequest "Invalid role. Must be user, assistant, or system", db)
    else
      let cid := conversationId.getD ""
      if ownedConv db cid (userId.getD "") = false then (.notFound, db)
      else
        let row : MsgRow :=
          { id := db.nextId
            conversation_id := cid
            role := r
            content := content.getD ""
            created_at := db.clock }
        (.created { id := row.id, role := row.role, content := row.content,
                    timestamp := row.created_at },
          { db with msgs := db.msgs ++ [row],
                    nextId := db.nextId + 1,
                    clock := db.clock + 1 })

/-- `GET /conversation/:conversationId` of `routes/messages.ts` (lines 8-51):
auth check, conversation ownership, then the messages of the conversation
ordered by `created_at` ascending. -/
def messagesGetConversation (db : MsgDB) (userId : Option String)
    (conversationId : String) : MsgResp :=
  if truthy userId = false then .unauthorized
  else if ownedConv db conversationId (userId.getD "") = false then .notFound
  else
    .ok (((db.msgs.filter (fun m => m.conversation_id == conversationId)).mergeSort
        (fun a b => a.created_at ≤ b.created_at)).map
      (fun m => { id := m.id, role := m.role, content := m.content,
                  timestamp := m.created_at }))

theorem map_specDocBlock (docs : List RetrievedDocument) :
    docs.map specDocBlock =
      docs.map (fun doc =>
        "[Product: " ++ doc.product_id ++ ", Source: " ++ doc.source_type
          ++ renderSourceId doc.source_id ++ "]" ++ "\n" ++ doc.text_snippet) := by
  induction docs with
  | nil => rfl
  | cons d ds ih => simp only [List.map_cons, specDocBlock_eq d, ih]

/-- C2 (amended): `buildContextText` renders each document as the provenance
tag `[Product: <id>, Source: <type>]`, extended with `, ID: <id>` exactly when
the document has a present, non-empty source id, followed on the next line by
the text snippet, documents joined by blank lines. -/
theorem C2_buildContextText_format (docs : List RetrievedDocument) :
    buildContextText docs = specContextText docs := by
  unfold buildContextText specContextText
  rw [map_specDocBlock]

/-- Document with a null source id, on which the claimed unconditional
`, ID: <id>` tag segment is absent from the rendered context. -/
def c2Doc : RetrievedDocument :=
  { product_id := "p1"
    source_type := "description"
    source_id := none
    text_snippet := "A porcelain dinner set."
    similarity := 9/10 }

/-- C2 counterexample: for a document whose `source_id` is null, the rendered
block is `[Product: p1, Source: description]` followed by the snippet; it does
not contain the literal `, ID: ` marker the claimed tag format requires. -/
theorem C2_counterexample :
    buildContextText [c2Doc] = "[Product: p1, Source: description]\nA porcelain dinner set."
      ∧ containsSubstr (buildContextText [c2Doc]) ", ID: " = false := by
  constructor
  · rfl
  · decide

/-- C1 (amended): in the `routes/chat.js` handler, whenever the retrieval
step succeeds with zero documents, the response is a 200 whose answer is the
fixed escalation string byte for byte, with empty provenance and an empty
`retrieved_docs` array. -/
theorem C1_empty_retrieval_escalates (o : ChatOracles) (sp m s : String)
    (e : Embedding) (hm : m ≠ "") (hs : s ≠ "")
    (hemb : o.embed m = .ok e) (hrpc : o.rpc e 5 = .ok []) :
    chatPost o sp ⟨some m, some s⟩ =
      (.ok { answer := escalationMessage, provenance := [], retrieved := .emptyArr },
        ⟨1, 1, 0, 0⟩) := by
  unfold chatPost retrieveRelevantDocs
  simp [truthy, hm, hs, hemb, hrpc]

/-- Oracles under which retrieval succeeds with zero documents. -/
def c1Oracles : ChatOracles :=
  { embed := fun _ => .ok [1]
    rpc := fun _ _ => .ok []
    gen := fun _ _ => .ok ""
    save := fun _ => .ok () }

theorem C1_empty_retrieval_escalates_witness :
    chatPost c1Oracles "sys" ⟨some "hi", some "s1"⟩ =
      (.ok { answer := escalationMessage, provenance := [], retrieved := .emptyArr },
        ⟨1, 1, 0, 0⟩) :=
  C1_empty_retrieval_escalates c1Oracles "sys" "hi" "s1" [1]
    (by decide) (by decide) rfl rfl

/-- Oracles for the `server-fixed.ts` handler under which retrieval succeeds
with zero documents and generation returns an ordinary answer. -/
def c1FixedOracles : FixedOracles :=
  { embed := fun _ => .ok [1]
    rpc := fun _ _ => .ok []
    gen := fun _ _ => .ok "Our dinner sets are porcelain."
    save := fun _ => .ok () }

/-- Configured environment for the `server-fixed.ts` handler. -/
def c1Env : FixedEnv := { openai_api_key := some "key", supabase_url := some "url" }

/-- C1 counterexample: the `POST /api/chat` handler of `server-fixed.ts` has
no empty-retrieval branch; with retrieval returning zero documents it still
calls generation and answers with whatever the model returned, not with the
fixed escalation string. -/
theorem C1_counterexample :
    answerOf (serverFixedChatPost c1FixedOracles c1Env "sys"
        ⟨some "What dinner sets do you have?", some "s1"⟩).fst
      = some "Our dinner sets are porcelain."
    ∧ some "Our dinner sets are porcelain." ≠ some escalationMessage
    ∧ (serverFixedChatPost c1FixedOracles c1Env "sys"
        ⟨some "What dinner sets do you have?", some "s1"⟩).snd.rpcCalls = 1 := by
  refine ⟨rfl, ?_, rfl⟩
  decide

/-- C5 (amended): the response of the `routes/chat.js` handler does not
depend on the outcome of the persistence write: with any two save oracles and
all other collaborators equal, the HTTP response is identical. -/
theorem C5_save_outcome_invisible (sp : String) (req : ChatReq)
    (embed : String → Except String Embedding)
    (rpc : Embedding → Nat → Except String (List RetrievedDocument))
    (gen : String → String → Except String String)
    (s1 s2 : ChatSaveRecord → Except String Unit) :
    (chatPost ⟨embed, rpc, gen, s1⟩ sp req).fst
      = (chatPost ⟨embed, rpc, gen, s2⟩ sp req).fst := by
  by_cases h1 : truthy req.message = false
  · simp [chatPost, h1]
  · by_cases h2 : truthy req.sessionId = false
    · simp [chatPost, h1, h2]
    · rcases hret : retrieveRelevantDocs embed rpc (req.message.getD "") 5 with ⟨r, t⟩
      cases r with
      | error e => simp [chatPost, h1, h2, hret]
      | ok docs =>
        by_cases hd : docs.isEmpty
        · simp [chatPost, h1, h2, hret, hd]
        · rcases hgen : gen sp (mkUserContent (buildContextText docs) (req.message.getD ""))
            with e | ans
          · simp [chatPost, h1, h2, hret, hd, hgen]
          · simp [chatPost, h1, h2, hret, hd, hgen]

/-- A document retrieved in the C5 counterexample run. -/
def c5Doc : RetrievedDocument :=
  { product_id := "p1"
    source_type := "description"
    source_id := some "d1"
    text_snippet := "Porcelain mugs."
    similarity := 4/5 }

/-- Configured environment for the C5 counterexample run. -/
def c5Env : FixedEnv := { openai_api_key := some "key", supabase_url := some "url" }

/-- `server-fixed.ts` collaborators whose persistence write succeeds. -/
def c5OraclesOk : FixedOracles :=
  { embed := fun _ => .ok [1]
    rpc := fun _ _ => .ok [c5Doc]
    gen := fun _ _ => .ok "We sell porcelain mugs."
    save := fun _ => .ok () }

/-- The same collaborators, except that the persistence write fails. -/
def c5OraclesFail : FixedOracles :=
  { embed := fun _ => .ok [1]
    rpc := fun _ _ => .ok [c5Doc]
    gen := fun _ _ => .ok "We sell porcelain mugs."
    save := fun _ => .error "insert failed" }

/-- C5 counterexample: in the `server-fixed.ts` handler a failed persistence
write after a successful generation is not swallowed: the same request that
yields a 200 when the write succeeds yields a 500 when it fails. -/
theorem C5_counterexample :
    statusCode (serverFixedChatPost c5OraclesFail c5Env "sys"
        ⟨some "Do you sell mugs?", some "s1"⟩).fst = 500
    ∧ statusCode (serverFixedChatPost c5OraclesOk c5Env "sys"
        ⟨some "Do you sell mugs?", some "s1"⟩).fst = 200
    ∧ (serverFixedChatPost c5OraclesFail c5Env "sys"
        ⟨some "Do you sell mugs?", some "s1"⟩).fst
      ≠ (serverFixedChatPost c5OraclesOk c5Env "sys"
        ⟨some "Do you sell mugs?", some "s1"⟩).fst := by
  refine ⟨rfl, rfl, ?_⟩
  decide

/-- C6 (statement shape): every failure of the embedding call, the
vector-search RPC, or the generation call in the `routes/chat.js` handler
yields the generic 500 response, with the failing call performed exactly once
and no later external call performed. -/
theorem C6_dependency_failure_is_500 (o : ChatOracles) (sp m s : String)
    (hm : m ≠ "") (hs : s ≠ "") :
    (∀ err, o.embed m = .error err →
      chatPost o sp ⟨some m, some s⟩ = (.serverError, ⟨1, 0, 0, 0⟩))
    ∧ (∀ emb err, o.embed m = .ok emb → o.rpc emb 5 = .error err →
      chatPost o sp ⟨some m, some s⟩ = (.serverError, ⟨1, 1, 0, 0⟩))
    ∧ (∀ emb docs err, o.embed m = .ok emb → o.rpc emb 5 = .ok docs →
      docs ≠ [] →
      o.gen sp (mkUserContent (buildContextText docs) m) = .error err →
      chatPost o sp ⟨some m, some s⟩ = (.serverError, ⟨1, 1, 1, 0⟩)) := by
  refine ⟨?_, ?_, ?_⟩
  · intro err hemb
    unfold chatPost retrieveRelevantDocs
    simp [truthy, hm, hs, hemb]
  · intro emb err hemb hrpc
    unfold chatPost retrieveRelevantDocs
    simp [truthy, hm, hs, hemb, hrpc]
  · intro emb docs err hemb hrpc hne hgen
    have hd : docs.isEmpty = false := by
      cases docs with
      | nil => exact absurd rfl hne
      | cons a l => rfl
    unfold chatPost retrieveRelevantDocs
    simp [truthy, hm, hs, hemb, hrpc, hd, hgen]

/-- Collaborators whose embedding call fails. -/
def c6EmbedFailOracles : ChatOracles :=
  { embed := fun _ => .error "embedding down"
    rpc := fun _ _ => .ok []
    gen := fun _ _ => .ok ""
    save := fun _ => .ok () }

/-- Collaborators whose vector-search RPC fails. -/
def c6RpcFailOracles : ChatOracles :=
  { embed := fun _ => .ok [1]
    rpc := fun _ _ => .error "rpc down"
    gen := fun _ _ => .ok ""
    save := fun _ => .ok () }

/-- A document retrieved in the C6 generation-failure run. -/
def c6Doc : RetrievedDocument :=
  { product_id := "p1"
    source_type := "faq"
    source_id := some "f1"
    text_snippet := "Dishwasher safe."
    similarity := 1/2 }

/-- Collaborators whose generation call fails. -/
def c6GenFailOracles : ChatOracles :=
  { embed := fun _ => .ok [1]
    rpc := fun _ _ => .ok [c6Doc]
    gen := fun _ _ => .error "completion down"
    save := fun _ => .ok () }

theorem C6_dependency_failure_is_500_witness :
    chatPost c6EmbedFailOracles "sys" ⟨some "q", some "s1"⟩
      = (.serverError, ⟨1, 0, 0, 0⟩)
    ∧ chatPost c6RpcFailOracles "sys" ⟨some "q", some "s1"⟩
      = (.serverError, ⟨1, 1, 0, 0⟩)
    ∧ chatPost c6GenFailOracles "sys" ⟨some "q", some "s1"⟩
      = (.serverError, ⟨1, 1, 1, 0⟩) :=
  ⟨(C6_dependency_failure_is_500 c6EmbedFailOracles "sys" "q" "s1"
      (by decide) (by decide)).1 "embedding down" rfl,
   (C6_dependency_failure_is_500 c6RpcFailOracles "sys" "q" "s1"
      (by decide) (by decide)).2.1 [1] "rpc down" rfl rfl,
   (C6_dependency_failure_is_500 c6GenFailOracles "sys" "q" "s1"
      (by decide) (by decide)).2.2 [1] [c6Doc] "completion down" rfl rfl
     (by decide) rfl⟩

/-- Every counter of the trace is at most one. -/
def traceLE (t : Trace) : Prop :=
  t.embedCalls ≤ 1 ∧ t.rpcCalls ≤ 1 ∧ t.genCalls ≤ 1 ∧ t.saveCalls ≤ 1

theorem retrieve_snd_cases
    (embed : String → Except String Embedding)
    (rpc : Embedding → Nat → Except String (List RetrievedDocument))
    (q : String) (k : Nat) :
    (retrieveRelevantDocs embed rpc q k).snd = ⟨1, 0, 0, 0⟩
      ∨ (retrieveRelevantDocs embed rpc q k).snd = ⟨1, 1, 0, 0⟩ := by
  unfold retrieveRelevantDocs
  rcases h : embed q with e | emb
  · left; rfl
  · rcases h2 : rpc emb k with e | docs
    · right; simp [h2]
    · right; simp [h2]

theorem traceLE_variants (t : Trace)
    (ht : t = ⟨1, 0, 0, 0⟩ ∨ t = ⟨1, 1, 0, 0⟩) :
    traceLE t ∧ traceLE { t with genCalls := 1 }
      ∧ traceLE { t with genCalls := 1, saveCalls := 1 } := by
  rcases ht with h | h <;> subst h <;>
    exact ⟨⟨by decide, by decide, by decide, by decide⟩,
           ⟨by decide, by decide, by decide, by decide⟩,
           ⟨by decide, by decide, by decide, by decide⟩⟩

/-- C7: any single handling of a `POST /api/chat` request - by the
`routes/chat.js` handler or by the `server-fixed.ts` handler - performs at
most one embedding call, at most one vector-search call, at most one
generation call, and at most one persistence write. -/
theorem C7_at_most_one_call_each (sp : String) (req : ChatReq)
    (o : ChatOracles) (fo : FixedOracles) (env : FixedEnv) :
    traceLE (chatPost o sp req).snd
      ∧ traceLE (serverFixedChatPost fo env sp req).snd := by
  constructor
  · by_cases h1 : truthy req.message = false
    · simp [chatPost, h1, traceLE]
    · by_cases h2 : truthy req.sessionId = false
      · simp [chatPost, h1, h2, traceLE]
      · rcases hret : retrieveRelevantDocs o.embed o.rpc (req.message.getD "") 5
          with ⟨r, t⟩
        have ht : t = ⟨1, 0, 0, 0⟩ ∨ t = ⟨1, 1, 0, 0⟩ := by
          have hx := retrieve_snd_cases o.embed o.rpc (req.message.getD "") 5
          rwa [hret] at hx
        have htle := traceLE_variants t ht
        cases r with
        | error e =>
            simp only [chatPost, h1, h2, hret, ite_false]
            exact htle.1
        | ok docs =>
            by_cases hd : docs.isEmpty
            · simp only [chatPost, h1, h2, hret, hd, ite_false, ite_true]
              exact htle.1
            · rcases hgen : o.gen sp
                  (mkUserContent (buildContextText docs) (req.message.getD ""))
                with e | ans
              · simp only [chatPost, h1, h2, hret, hd, hgen, ite_false]
                exact htle.2.1
              · simp only [chatPost, h1, h2, hret, hd, hgen, ite_false]
                exact htle.2.2
  · by_cases h1 : truthy req.message = false
    · simp [serverFixedChatPost, h1, traceLE]
    · by_cases h2 : truthy env.openai_api_key = false ∨ truthy env.supabase_url = false
      · simp only [serverFixedChatPost, h1, h2, ite_false, ite_true]
        exact ⟨by decide, by decide, by decide, by decide⟩
      · rcases hret : retrieveRelevantDocs fo.embed fo.rpc (req.message.getD "") 5
          with ⟨r, t⟩
        have ht : t = ⟨1, 0, 0, 0⟩ ∨ t = ⟨1, 1, 0, 0⟩ := by
          have hx := retrieve_snd_cases fo.embed fo.rpc (req.message.getD "") 5
          rwa [hret] at hx
        have htle := traceLE_variants t ht
        cases r with
        | error e =>
            simp only [serverFixedChatPost, h1, h2, hret, ite_false]
            exact htle.1
        | ok docs =>
            rcases hgen : fo.gen sp
                (mkUserContent (buildContextText docs) (req.message.getD ""))
              with e | ans
            · simp only [serverFixedChatPost, h1, h2, hret, hgen, ite_false]
              exact htle.2.1
            · by_cases hs : truthy req.sessionId
              · rcases hsave : fo.save
                    { session_id := req.sessionId.getD ""
                      user_message := req.message.getD ""
                      assistant_message := ans
                      provenance := docs } with e | u
                · simp only [serverFixedChatPost, h1, h2, hret, hgen, hs, hsave,
                    ite_false, ite_true]
                  exact htle.2.2
                · simp only [serverFixedChatPost, h1, h2, hret, hgen, hs, hsave,
                    ite_false, ite_true]
                  exact htle.2.2
              · simp only [serverFixedChatPost, h1, h2, hret, hgen, hs, ite_false]
                exact htle.2.1

/-- The query of the C8 scenario. -/
def dinnerQuery : String := "Tell me about your dinner sets"

/-- C8: for the query `Tell me about your dinner sets`, when the vector search
returns a matching embedding record of source type `description`, the
`routes/chat.js` response cites that record's product id in its provenance
list. -/
theorem C8_description_match_is_cited (o : ChatOracles) (sp s : String)
    (hs : s ≠ "") (emb : Embedding) (docs : List RetrievedDocument)
    (d : RetrievedDocument) (ans : String)
    (hemb : o.embed dinnerQuery = .ok emb)
    (hrpc : o.rpc emb 5 = .ok docs)
    (hd : d ∈ docs) (hdesc : d.source_type = "description")
    (hgen : o.gen sp (mkUserContent (buildContextText docs) dinnerQuery) = .ok ans) :
    ∃ body, (chatPost o sp ⟨some dinnerQuery, some s⟩).fst = .ok body
      ∧ d.product_id ∈ body.provenance.map (fun p => p.product_id) := by
  have hq : (dinnerQuery == "") = false := rfl
  have hne : docs ≠ [] := by
    intro h
    subst h
    cases hd
  refine ⟨{ answer := ans, provenance := docs.map provOfDoc,
            retrieved := .count docs.length }, ?_, ?_⟩
  · unfold chatPost retrieveRelevantDocs
    simp [truthy, hq, hs, hemb, hrpc, hne, hgen]
  · rw [List.map_map]
    exact List.mem_map_of_mem (fun doc => (provOfDoc doc).product_id) hd

/-- A `description` embedding record for a dinner set. -/
def c8Doc : RetrievedDocument :=
  { product_id := "dinner-set-12"
    source_type := "description"
    source_id := some "desc-1"
    text_snippet := "A 24-piece porcelain dinner set."
    similarity := 93/100 }

/-- Collaborators for the C8 scenario run. -/
def c8Oracles : ChatOracles :=
  { embed := fun _ => .ok [1]
    rpc := fun _ _ => .ok [c8Doc]
    gen := fun _ _ => .ok "We offer a 24-piece porcelain dinner set."
    save := fun _ => .ok () }

theorem C8_description_match_is_cited_witness :
    ∃ body, (chatPost c8Oracles "sys" ⟨some dinnerQuery, some "s1"⟩).fst = .ok body
      ∧ (c8Doc).product_id ∈ body.provenance.map (fun p => p.product_id) :=
  C8_description_match_is_cited c8Oracles "sys" "s1" (by decide) [1] [c8Doc] c8Doc
    "We offer a 24-piece porcelain dinner set." rfl rfl (List.mem_singleton.mpr rfl)
    rfl rfl

theorem ownedConv_update (db : MsgDB) (ms : List MsgRow) (n k : Nat)
    (cid uid : String) :
    ownedConv { convs := db.convs, msgs := ms, nextId := n, clock := k } cid uid
      = ownedConv db cid uid := rfl

/-- C3: a message accepted by `POST /` of the messages router (role in the
whitelist, non-empty content, conversation owned by the requesting user) is
returned by a subsequent `GET /conversation/:conversationId` on the resulting
database state, with role and content unchanged. -/
theorem C3_message_roundTrip (db : MsgDB) (u cid r c : String) (d : MsgOut)
    (db2 : MsgDB)
    (h : messagesPost db (some u) (some cid) (some r) (some c) = (.created d, db2)) :
    d.role = r ∧ d.content = c ∧
      ∃ l, messagesGetConversation db2 (some u) cid = .ok l ∧ d ∈ l := by
  by_cases h1 : truthy (some u) = false
  · simp [messagesPost, h1] at h
  · by_cases h2 : (!truthy (some cid) || !truthy (some r) || !truthy (some c)) = true
    · simp [messagesPost, h1, h2] at h
    · by_cases h3 : r ∈ validRoles
      case neg => simp [messagesPost, h1, h2, h3] at h
      case pos =>
        by_cases h4 : ownedConv db cid u = false
        · simp [messagesPost, h1, h2, h3, h4] at h
        · simp [messagesPost, h1, h2, h3, h4] at h
          obtain ⟨hd, hdb⟩ := h
          subst hd
          subst hdb
          refine ⟨rfl, rfl, ?_⟩
          refine ⟨(((db.msgs
                ++ [({ id := db.nextId, conversation_id := cid, role := r,
                       content := c, created_at := db.clock } : MsgRow)]).filter
                  (fun m => m.conversation_id == cid)).mergeSort
                (fun a b => a.created_at ≤ b.created_at)).map
              (fun m => ({ id := m.id, role := m.role, content := m.content,
                           timestamp := m.created_at } : MsgOut)), ?_, ?_⟩
          · unfold messagesGetConversation
            simp only [Option.getD_some, ownedConv_update]
            rw [if_neg h1, if_neg h4]
          · rw [List.mem_map]
            refine ⟨{ id := db.nextId, conversation_id := cid, role := r,
                      content := c, created_at := db.clock }, ?_, rfl⟩
            rw [List.mem_mergeSort]
            refine List.mem_filter.mpr
              ⟨List.mem_append_right _ (List.mem_singleton.mpr rfl), ?_⟩
            exact beq_self_eq_true cid

theorem C3_message_roundTrip_witness :
    (⟨0, "user", "hello", 0⟩ : MsgOut).role = "user"
    ∧ (⟨0, "user", "hello", 0⟩ : MsgOut).content = "hello"
    ∧ ∃ l, messagesGetConversation
          ⟨[⟨"c1", "u1"⟩], [⟨0, "c1", "user", "hello", 0⟩], 1, 1⟩
          (some "u1") "c1" = .ok l
        ∧ (⟨0, "user", "hello", 0⟩ : MsgOut) ∈ l :=
  C3_message_roundTrip ⟨[⟨"c1", "u1"⟩], [], 0, 0⟩ "u1" "c1" "user" "hello"
    ⟨0, "user", "hello", 0⟩
    ⟨[⟨"c1", "u1"⟩], [⟨0, "c1", "user", "hello", 0⟩], 1, 1⟩ (by decide)

/-- The role check of the claim: the request role is outside
`{user, assistant, system}` (a missing or non-string role also counts as
outside). -/
def roleOutside (role : Option String) : Bool :=
  match role with
  | none => true
  | some s => !(validRoles.contains s)

/-- C4 (amended): for every authenticated request to the message-send
endpoint whose role is outside `{user, assistant, system}` or whose content
is empty, the handler responds 400 and leaves the database unchanged.  (An
unauthenticated such request is rejected 401 instead, see the
counterexample.) -/
theorem C4_invalid_message_rejected_400 (db : MsgDB) (u : String)
    (cid role content : Option String) (hu : u ≠ "")
    (hbad : roleOutside role = true ∨ truthy content = false) :
    msgStatus (messagesPost db (some u) cid role content).fst = 400
      ∧ (messagesPost db (some u) cid role content).snd = db := by
  have h1 : ¬(truthy (some u) = false) := by simp [truthy, hu]
  unfold messagesPost
  rw [if_neg h1]
  by_cases h2 : (!truthy cid || !truthy role || !truthy content) = true
  · rw [if_pos h2]
    exact ⟨rfl, rfl⟩
  · have h2' : (truthy cid = true ∧ truthy role = true) ∧ truthy content = true := by
      simpa using h2
    rcases h2' with ⟨⟨hc, hr⟩, hcont⟩
    rw [if_neg h2]
    cases role with
    | none => simp [truthy] at hr
    | some s =>
      have hrole : roleOutside (some s) = true := by
        rcases hbad with hb | hb
        · exact hb
        · rw [hcont] at hb
          cases hb
      have hcontains : validRoles.contains ((some s).getD "") = false := by
        simpa [roleOutside] using hrole
      rw [if_pos hcontains]
      exact ⟨rfl, rfl⟩

/-- The database of the C4 counterexample and witness runs. -/
def c4Db : MsgDB := ⟨[⟨"c1", "u1"⟩], [], 0, 0⟩

/-- C4 counterexample: an unauthenticated request whose role `admin` is
outside the whitelist is rejected with 401, not 400 (the auth check of
`routes/messages.ts` line 59 runs before any field validation). -/
theorem C4_counterexample :
    msgStatus (messagesPost c4Db none (some "c1") (some "admin") (some "hi")).fst = 401
    ∧ msgStatus (messagesPost c4Db none (some "c1") (some "admin") (some "hi")).fst ≠ 400
    ∧ (messagesPost c4Db none (some "c1") (some "admin") (some "hi")).snd = c4Db := by
  exact ⟨rfl, by decide, rfl⟩

theorem C4_invalid_message_rejected_400_witness :
    msgStatus (messagesPost c4Db (some "u1") (some "c1") (some "admin") (some "hi")).fst = 400
    ∧ (messagesPost c4Db (some "u1") (some "c1") (some "admin") (some "hi")).snd = c4Db :=
  C4_invalid_message_rejected_400 c4Db "u1" (some "c1") (some "admin") (some "hi")
    (by decide) (Or.inl (by decide))

/-- A snippet entry of a `searchProducts` result
(`retrieval.ts` lines 131-135). -/
structure ProductSnippet where
  source_type : String
  text_snippet : String
  similarity : Rat
deriving DecidableEq

/-- A grouped product entry of a `searchProducts` result
(`retrieval.ts` lines 122-127). -/
structure ProductEntry where
  product_id : String
  max_similarity : Rat
  relevant_snippets : List ProductSnippet
deriving DecidableEq

/-- The snippet recorded for one retrieved document. -/
def snippetOf (d : RetrievedDocument) : ProductSnippet :=
  { source_type := d.source_type
    text_snippet := d.text_snippet
    similarity := d.similarity }

/-- One iteration of the grouping loop of `searchProducts`
(`retrieval.ts` lines 121-140): create the entry on first sight of a product
id, append the snippet, and raise the running maximum when the new
similarity exceeds it. -/
def addDoc (m : List ProductEntry) (d : RetrievedDocument) : List ProductEntry :=
  if m.any (fun e => e.product_id == d.product_id) then
    m.map (fun e =>
      if e.product_id == d.product_id then
        { e with
            relevant_snippets := e.relevant_snippets ++ [snippetOf d]
            max_similarity :=
              if e.max_similarity < d.similarity then d.similarity
              else e.max_similarity }
      else e)
  else
    m ++ [{ product_id := d.product_id
            max_similarity := d.similarity
            relevant_snippets := [snippetOf d] }]

/-- The pure core of `searchProducts` (`retrieval.ts` lines 111-149): group
the retrieved documents by product id in encounter order, then sort by
descending `max_similarity` (the JS comparator `b.max_similarity -
a.max_similarity`). -/
def searchProductsResult (docs : List RetrievedDocument) : List ProductEntry :=
  (docs.foldl addDoc []).mergeSort
    (fun a b => b.max_similarity ≤ a.max_similarity)

/-- `searchProducts` itself: retrieval followed by grouping and sorting;
a retrieval failure is rethrown. -/
def searchProducts
    (embed : String → Except String Embedding)
    (rpc : Embedding → Nat → Except String (List RetrievedDocument))
    (query : String) (topK : Nat) :
    Except String (List ProductEntry) × Trace :=
  match retrieveRelevantDocs embed rpc query topK with
  | (.error e, t) => (.error e, t)
  | (.ok docs, t) => (.ok (searchProductsResult docs), t)

/-- The per-entry part of the grouping invariant: the entry holds exactly the
snippets of its product in document order, and its running maximum is the
maximum of their similarities. -/
def entryInv (docs : List RetrievedDocument) (e : ProductEntry) : Prop :=
  e.relevant_snippets
      = (docs.filter (fun d2 => d2.product_id == e.product_id)).map snippetOf
    ∧ e.max_similarity ∈ e.relevant_snippets.map (fun s2 => s2.similarity)
    ∧ ∀ x ∈ e.relevant_snippets.map (fun s2 => s2.similarity),
        x ≤ e.max_similarity

/-- The grouping-loop invariant over the processed document prefix. -/
def stateInv (docs : List RetrievedDocument) (m : List ProductEntry) : Prop :=
  (m.map (fun e => e.product_id)).Nodup
    ∧ (∀ e ∈ m, entryInv docs e)
    ∧ ∀ d ∈ docs, d.product_id ∈ m.map (fun e => e.product_id)

theorem addDoc_inv (pref : List RetrievedDocument) (m : List ProductEntry)
    (d : RetrievedDocument) (h : stateInv pref m) :
    stateInv (pref ++ [d]) (addDoc m d) := by
  obtain ⟨hnd, hent, hcomp⟩ := h
  by_cases hany : m.any (fun e => e.product_id == d.product_id) = true
  · have hkeys : (addDoc m d).map (fun e => e.product_id)
        = m.map (fun e => e.product_id) := by
      unfold addDoc
      rw [if_pos hany, List.map_map]
      apply List.map_congr_left
      intro e _
      by_cases hx : (e.product_id == d.product_id) = true
      · simp [Function.comp, hx]
      · simp [Function.comp, hx]
    refine ⟨?_, ?_, ?_⟩
    · rw [hkeys]
      exact hnd
    · intro e' he'
      unfold addDoc at he'
      rw [if_pos hany, List.mem_map] at he'
      obtain ⟨e, hem, hfe⟩ := he'
      obtain ⟨hsn, hmem, hbound⟩ := hent e hem
      by_cases hx : (e.product_id == d.product_id) = true
      · have hpid : e.product_id = d.product_id := beq_iff_eq.mp hx
        rw [if_pos hx] at hfe
        subst hfe
        refine ⟨?_, ?_, ?_⟩
        · show e.relevant_snippets ++ [snippetOf d]
            = ((pref ++ [d]).filter
                (fun d2 => d2.product_id == e.product_id)).map snippetOf
          rw [List.filter_append, List.map_append, ← hsn, List.filter_singleton]
          have hdx : (d.product_id == e.product_id) = true :=
            beq_iff_eq.mpr hpid.symm
          rw [hdx]
          rfl
        · show (if e.max_similarity < d.similarity then d.similarity
              else e.max_similarity)
            ∈ (e.relevant_snippets ++ [snippetOf d]).map (fun s2 => s2.similarity)
          rw [List.map_append, List.mem_append]
          by_cases hlt : e.max_similarity < d.similarity
          · right
            rw [if_pos hlt]
            simp [snippetOf]
          · left
            rw [if_neg hlt]
            exact hmem
        · intro x hx'
          rw [List.map_append, List.mem_append] at hx'
          by_cases hlt : e.max_similarity < d.similarity
          · show x ≤ if e.max_similarity < d.similarity then d.similarity
              else e.max_similarity
            rw [if_pos hlt]
            rcases hx' with hx' | hx'
            · exact le_trans (hbound x hx') (le_of_lt hlt)
            · simp only [List.map_cons, List.map_nil, List.mem_singleton] at hx'
              subst hx'
              exact le_refl _
          · show x ≤ if e.max_similarity < d.similarity then d.similarity
              else e.max_similarity
            rw [if_neg hlt]
            rcases hx' with hx' | hx'
            · exact hbound x hx'
            · simp only [List.map_cons, List.map_nil, List.mem_singleton] at hx'
              subst hx'
              exact le_of_not_lt hlt
      · rw [if_neg hx] at hfe
        subst hfe
        refine ⟨?_, hmem, hbound⟩
        rw [List.filter_append, List.map_append, ← hsn, List.filter_singleton]
        have hfx : (d.product_id == e.product_id) = false := by
          rw [beq_eq_false_iff_ne]
          intro hq
          exact hx (beq_iff_eq.mpr hq.symm)
        rw [hfx]
        simp
    · intro d' hd'
      rw [List.mem_append] at hd'
      rw [hkeys]
      rcases hd' with hd' | hd'
      · exact hcomp d' hd'
      · rw [List.mem_singleton] at hd'
        subst hd'
        rw [List.any_eq_true] at hany
        obtain ⟨e, hem, hx⟩ := hany
        rw [List.mem_map]
        exact ⟨e, hem, beq_iff_eq.mp hx⟩
  · have hkeynot : d.product_id ∉ m.map (fun e => e.product_id) := by
      intro hk
      rw [List.mem_map] at hk
      obtain ⟨e, hem, hpe⟩ := hk
      exact hany (List.any_eq_true.mpr ⟨e, hem, beq_iff_eq.mpr hpe⟩)
    unfold addDoc
    rw [if_neg hany]
    refine ⟨?_, ?_, ?_⟩
    · rw [List.map_append, List.nodup_append]
      refine ⟨hnd, ?_, ?_⟩
      · simp
      · simp only [List.map_cons, List.map_nil, List.disjoint_singleton]
        exact hkeynot
    · intro e' he'
      rw [List.mem_append] at he'
      rcases he' with hem | hnew
      · obtain ⟨hsn, hmem, hbound⟩ := hent e' hem
        refine ⟨?_, hmem, hbound⟩
        rw [List.filter_append, List.map_append, ← hsn, List.filter_singleton]
        have hfx : (d.product_id == e'.product_id) = false := by
          rw [beq_eq_false_iff_ne]
          intro hq
          apply hkeynot
          rw [List.mem_map]
          exact ⟨e', hem, hq.symm⟩
        rw [hfx]
        simp
      · rw [List.mem_singleton] at hnew
        subst hnew
        refine ⟨?_, ?_, ?_⟩
        · show [snippetOf d]
            = ((pref ++ [d]).filter
                (fun d2 => d2.product_id == d.product_id)).map snippetOf
          rw [List.filter_append, List.filter_singleton]
          have hprefnil :
              pref.filter (fun d2 => d2.product_id == d.product_id) = [] := by
            rw [List.filter_eq_nil_iff]
            intro d' hd' hq
            apply hkeynot
            have hq' : d'.product_id = d.product_id := beq_iff_eq.mp hq
            rw [← hq']
            exact hcomp d' hd'
          rw [hprefnil, beq_self_eq_true]
          rfl
        · simp [snippetOf]
        · intro x hx'
          simp only [List.map_cons, List.map_nil, List.mem_singleton] at hx'
          subst hx'
          exact le_refl _
    · intro d' hd'
      rw [List.mem_append] at hd'
      rw [List.map_append, List.mem_append]
      rcases hd' with hd' | hd'
      · left
        exact hcomp d' hd'
      · right
        rw [List.mem_singleton] at hd'
        subst hd'
        simp

theorem foldl_addDoc_inv (ds : List RetrievedDocument) :
    ∀ (pref : List RetrievedDocument) (m : List ProductEntry),
      stateInv pref m → stateInv (pref ++ ds) (ds.foldl addDoc m) := by
  induction ds with
  | nil =>
      intro pref m h
      simpa using h
  | cons d ds ih =>
      intro pref m h
      have h3 := ih (pref ++ [d]) (addDoc m d) (addDoc_inv pref m d h)
      simpa [List.append_assoc] using h3

theorem stateInv_fold (docs : List RetrievedDocument) :
    stateInv docs (docs.foldl addDoc []) := by
  have h := foldl_addDoc_inv docs [] []
    ⟨List.nodup_nil, fun e he => absurd he (List.not_mem_nil e),
     fun d hd => absurd hd (List.not_mem_nil d)⟩
  simpa using h

/-- C10: for every query result (the document list retrieval returns),
`searchProducts` returns entries with pairwise-distinct product ids, each
entry carrying exactly its product's snippets with `max_similarity` equal to
their maximum similarity, and the list sorted by non-increasing
`max_similarity`. -/
theorem C10_searchProducts_grouped_sorted
    (embed : String → Except String Embedding)
    (rpc : Embedding → Nat → Except String (List RetrievedDocument))
    (q : String) (k : Nat) (docs : List RetrievedDocument)
    (hret : (retrieveRelevantDocs embed rpc q k).fst = .ok docs) :
    (searchProducts embed rpc q k).fst = .ok (searchProductsResult docs)
    ∧ ((searchProductsResult docs).map (fun e => e.product_id)).Nodup
    ∧ (searchProductsResult docs).Sorted
        (fun a b => b.max_similarity ≤ a.max_similarity)
    ∧ ∀ e ∈ searchProductsResult docs,
        e.relevant_snippets
            = (docs.filter (fun d2 => d2.product_id == e.product_id)).map snippetOf
          ∧ e.max_similarity ∈ e.relevant_snippets.map (fun s2 => s2.similarity)
          ∧ ∀ x ∈ e.relevant_snippets.map (fun s2 => s2.similarity),
              x ≤ e.max_similarity := by
  obtain ⟨hnd, hent, _⟩ := stateInv_fold docs
  refine ⟨?_, ?_, ?_, ?_⟩
  · unfold searchProducts
    rcases hr : retrieveRelevantDocs embed rpc q k with ⟨r, t⟩
    rw [hr] at hret
    cases r with
    | error e => simp at hret
    | ok ds =>
        simp only [] at hret
        rw [show ds = docs from by injection hret]
  · unfold searchProductsResult
    have hperm :=
      (List.mergeSort_perm (docs.foldl addDoc [])
        (fun a b => b.max_similarity ≤ a.max_similarity)).map
        (fun e => e.product_id)
    exact hperm.nodup_iff.mpr hnd
  · unfold searchProductsResult List.Sorted
    have hp := @List.sorted_mergeSort ProductEntry
      (fun a b => decide (b.max_similarity ≤ a.max_similarity))
      (fun a b c hab hbc => by
        rw [decide_eq_true_eq] at hab hbc ⊢
        exact le_trans hbc hab)
      (fun a b => by
        rcases le_total b.max_similarity a.max_similarity with h | h
        · simp [h]
        · simp [h])
      (docs.foldl addDoc [])
    exact hp.imp (fun hab => by simpa using hab)
  · intro e he
    unfold searchProductsResult at he
    rw [List.mem_mergeSort] at he
    exact hent e he

/-- First retrieved document of the C10 witness run. -/
def c10DocA : RetrievedDocument :=
  { product_id := "p1", source_type := "description", source_id := some "d1",
    text_snippet := "Bone china plate.", similarity := 9/10 }

/-- Second retrieved document of the C10 witness run. -/
def c10DocB : RetrievedDocument :=
  { product_id := "p2", source_type := "faq", source_id := none,
    text_snippet := "Microwave safe.", similarity := 7/10 }

/-- Third retrieved document of the C10 witness run, same product as the
first with a lower similarity. -/
def c10DocC : RetrievedDocument :=
  { product_id := "p1", source_type := "spec", source_id := some "s1",
    text_snippet := "Diameter 27 cm.", similarity := 4/5 }

/-- Embedding oracle of the C10 witness run. -/
def c10Embed : String → Except String Embedding := fun _ => .ok [1]

/-- Vector-search oracle of the C10 witness run. -/
def c10Rpc : Embedding → Nat → Except String (List RetrievedDocument) :=
  fun _ _ => .ok [c10DocA, c10DocB, c10DocC]

theorem C10_searchProducts_grouped_sorted_witness :
    (searchProducts c10Embed c10Rpc "plates" 10).fst
        = .ok (searchProductsResult [c10DocA, c10DocB, c10DocC])
    ∧ ((searchProductsResult [c10DocA, c10DocB, c10DocC]).map
        (fun e => e.product_id)).Nodup
    ∧ (searchProductsResult [c10DocA, c10DocB, c10DocC]).Sorted
        (fun a b => b.max_similarity ≤ a.max_similarity)
    ∧ ∀ e ∈ searchProductsResult [c10DocA, c10DocB, c10DocC],
        e.relevant_snippets
            = ([c10DocA, c10DocB, c10DocC].filter
                (fun d2 => d2.product_id == e.product_id)).map snippetOf
          ∧ e.max_similarity ∈ e.relevant_snippets.map (fun s2 => s2.similarity)
          ∧ ∀ x ∈ e.relevant_snippets.map (fun s2 => s2.similarity),
              x ≤ e.max_similarity :=
  C10_searchProducts_grouped_sorted c10Embed c10Rpc "plates" 10
    [c10DocA, c10DocB, c10DocC] rfl

/-- Whitespace as ECMAScript `String.prototype.trim` sees it: WhiteSpace
(TAB, VT, FF, SP, NBSP, ZWNBSP and the Unicode Space_Separator category)
together with the LineTerminator characters (LF, CR, LS, PS). -/
def isWS (c : Char) : Bool :=
  c == ' ' || c == '\t' || c == '\n' || c == '\r'
    || c == Char.ofNat 0x0B || c == Char.ofNat 0x0C
    || c == Char.ofNat 0xA0 || c == Char.ofNat 0xFEFF
    || c == Char.ofNat 0x1680
    || (0x2000 ≤ c.toNat && c.toNat ≤ 0x200A)
    || c == Char.ofNat 0x2028 || c == Char.ofNat 0x2029
    || c == Char.ofNat 0x202F || c == Char.ofNat 0x205F
    || c == Char.ofNat 0x3000

/-- Accumulator pass of JS `text.split(' ')`: split on every single space
character, keeping empty segments. -/
def splitSpAux : List Char → List Char → List (List Char)
  | [], cur => [cur.reverse]
  | c :: rest, cur =>
      if c == ' ' then cur.reverse :: splitSpAux rest []
      else splitSpAux rest (c :: cur)

/-- JS `text.split(' ')` on a character list. -/
def splitSp (l : List Char) : List (List Char) := splitSpAux l []

/-- JS `words.join(' ')` on a list of words. -/
def joinSp : List (List Char) → List Char
  | [] => []
  | [w] => w
  | w :: x :: ws => w ++ ' ' :: joinSp (x :: ws)

/-- JS `String.prototype.trim` on a character list: drop whitespace from the
front, then from the back. -/
def trimChars (l : List Char) : List Char :=
  ((l.dropWhile isWS).reverse.dropWhile isWS).reverse

/-- The chunk built at index `i` of the `chunkText` loop:
`words.slice(i, i + chunkSize).join(' ')` followed by `.trim()`
(`src/unnamed/part_003` lines 51-54). -/
def mkChunk (words : List (List Char)) (cs i : Nat) : List Char :=
  trimChars (joinSp ((words.drop i).take cs))

/-- The `for` loop of `chunkText` (`src/unnamed/part_003` lines 50-55), with
explicit fuel: each iteration advances `i` by `chunkSize - overlap` (natural
subtraction; the source loops forever when the step is not positive, here the
fuel runs out and `none` is returned). -/
def chunkLoop (words : List (List Char)) (cs ov fuel i : Nat)
    (acc : List (List Char)) : Option (List (List Char)) :=
  if i < words.length then
    match fuel with
    | 0 => none
    | fuel2 + 1 =>
        chunkLoop words cs ov fuel2 (i + (cs - ov))
          (if (mkChunk words cs i).isEmpty then acc
           else acc ++ [mkChunk words cs i])
  else some acc

/-- `chunkText` from `src/unnamed/part_003` (lines 46-58), with fuel equal to
the number of words (shown sufficient whenever `overlap < chunkSize`). -/
def chunkText (text : List Char) (chunkSize overlap : Nat) :
    Option (List (List Char)) :=
  chunkLoop (splitSp text) chunkSize overlap (splitSp text).length 0 []

theorem mem_joinSp : ∀ (l : List (List Char)) (w : List Char), w ∈ l → w <:+: joinSp l := by
  intro l
  induction l with
  | nil => intro w hw; cases hw
  | cons x xs ih =>
      intro w hw
      cases xs with
      | nil =>
          rw [List.mem_singleton] at hw
          subst hw
          exact List.infix_rfl
      | cons y ys =>
          rcases List.mem_cons.mp hw with hw | hw
          · subst hw
            show w <:+: w ++ ' ' :: joinSp (y :: ys)
            exact (List.prefix_append w _).isInfix
          · have h1 : w <:+: joinSp (y :: ys) := ih w hw
            have h2 : joinSp (y :: ys) <:+: x ++ ' ' :: joinSp (y :: ys) :=
              ((List.suffix_append [' '] _).trans (List.suffix_append x _)).isInfix
            exact h1.trans h2

theorem infix_dropWhile_aux (p : Char → Bool) (c : Char) (w b : List Char)
    (hc : p c = false) :
    ∀ a : List Char, (c :: w) <:+: List.dropWhile p (a ++ (c :: (w ++ b))) := by
  intro a
  induction a with
  | nil =>
      rw [List.nil_append, List.dropWhile_cons, hc]
      rw [if_neg Bool.false_ne_true]
      exact ⟨[], b, by simp⟩
  | cons x xs ih =>
      rw [List.cons_append, List.dropWhile_cons]
      by_cases hx : p x = true
      · rw [if_pos hx]
        exact ih
      · rw [if_neg hx]
        exact ⟨x :: xs, b, by simp⟩

theorem infix_dropWhile (p : Char → Bool) {w s : List Char} (hw : w ≠ [])
    (hh : p (w.head hw) = false) (h : w <:+: s) :
    w <:+: s.dropWhile p := by
  cases w with
  | nil => exact absurd rfl hw
  | cons c w2 =>
      obtain ⟨a, b, hab⟩ := h
      have hs : s = a ++ (c :: (w2 ++ b)) := by
        rw [← hab]
        simp
      rw [hs]
      exact infix_dropWhile_aux p c w2 b hh a

theorem infix_reverse_of {w s : List Char} (h : w <:+: s) :
    w.reverse <:+: s.reverse := by
  obtain ⟨a, b, hab⟩ := h
  exact ⟨b.reverse, a.reverse, by rw [← hab]; simp⟩

theorem length_trimChars_le (l : List Char) :
    (trimChars l).length ≤ (l.dropWhile isWS).length := by
  unfold trimChars
  rw [List.length_reverse]
  calc ((l.dropWhile isWS).reverse.dropWhile isWS).length
      ≤ (l.dropWhile isWS).reverse.length :=
        (List.dropWhile_suffix _).sublist.length_le
    _ = (l.dropWhile isWS).length := List.length_reverse _

theorem dropWhile_eq_self_of_trim {w : List Char} (hweq : trimChars w = w) :
    w.dropWhile isWS = w := by
  have h1 : (trimChars w).length ≤ (w.dropWhile isWS).length :=
    length_trimChars_le w
  rw [hweq] at h1
  have h2 : (w.dropWhile isWS).length ≤ w.length :=
    (List.dropWhile_suffix isWS).sublist.length_le
  exact (List.dropWhile_suffix isWS).eq_of_length (le_antisymm h2 h1)

theorem rev_dropWhile_eq_self_of_trim {w : List Char} (hweq : trimChars w = w) :
    w.reverse.dropWhile isWS = w.reverse := by
  have h0 : w.dropWhile isWS = w := dropWhile_eq_self_of_trim hweq
  have h1 : (w.reverse.dropWhile isWS).reverse = w := by
    unfold trimChars at hweq
    rw [h0] at hweq
    exact hweq
  calc w.reverse.dropWhile isWS
      = ((w.reverse.dropWhile isWS).reverse).reverse :=
        (List.reverse_reverse _).symm
    _ = w.reverse := by rw [h1]

theorem head_not_ws_of_dropWhile_eq {w : List Char} (hw : w ≠ [])
    (h : w.dropWhile isWS = w) : isWS (w.head hw) = false := by
  cases w with
  | nil => exact absurd rfl hw
  | cons c w2 =>
      by_cases hc : isWS c = true
      · exfalso
        rw [List.dropWhile_cons, if_pos hc] at h
        have hlen := congrArg List.length h
        have hle : (w2.dropWhile isWS).length ≤ w2.length :=
          (List.dropWhile_suffix isWS).sublist.length_le
        simp only [List.length_cons] at hlen
        omega
      · simpa using hc

theorem infix_trimChars {w s : List Char} (hw : w ≠ []) (hweq : trimChars w = w)
    (h : w <:+: s) : w <:+: trimChars s := by
  have hd := dropWhile_eq_self_of_trim hweq
  have hrd := rev_dropWhile_eq_self_of_trim hweq
  have hwrev : w.reverse ≠ [] := by simpa using hw
  have h1 : w <:+: s.dropWhile isWS :=
    infix_dropWhile isWS hw (head_not_ws_of_dropWhile_eq hw hd) h
  have h2 : w.reverse <:+: (s.dropWhile isWS).reverse := infix_reverse_of h1
  have h3 : w.reverse <:+: ((s.dropWhile isWS).reverse).dropWhile isWS :=
    infix_dropWhile isWS hwrev (head_not_ws_of_dropWhile_eq hwrev hrd) h2
  have h4 := infix_reverse_of h3
  rw [List.reverse_reverse] at h4
  unfold trimChars
  exact h4

theorem mem_slice (words : List (List Char)) (cs i j : Nat) (w : List Char)
    (h1 : i ≤ j) (h2 : j < i + cs) (hw : words.get? j = some w) :
    w ∈ (words.drop i).take cs := by
  have hx : ((words.drop i).take cs).get? (j - i) = some w := by
    rw [List.get?_take (show j - i < cs by omega), List.get?_drop,
      show i + (j - i) = j from by omega]
    exact hw
  exact List.get?_mem hx

theorem chunkLoop_stop (words : List (List Char)) (cs ov fuel i : Nat)
    (acc : List (List Char)) (h : ¬ i < words.length) :
    chunkLoop words cs ov fuel i acc = some acc := by
  unfold chunkLoop
  rw [if_neg h]

theorem chunkLoop_succ (words : List (List Char)) (cs ov fuel2 i : Nat)
    (acc : List (List Char)) (h : i < words.length) :
    chunkLoop words cs ov (fuel2 + 1) i acc
      = chunkLoop words cs ov fuel2 (i + (cs - ov))
          (if (mkChunk words cs i).isEmpty then acc
           else acc ++ [mkChunk words cs i]) := by
  conv_lhs => unfold chunkLoop
  rw [if_pos h]

theorem chunkLoop_spec (words : List (List Char)) (cs ov : Nat)
    (hstep : 0 < cs - ov) :
    ∀ (fuel i : Nat) (acc : List (List Char)), words.length ≤ i + fuel →
      ∃ r, chunkLoop words cs ov fuel i acc = some r
        ∧ (∀ c ∈ r, c ∈ acc
            ∨ ∃ j, i ≤ j ∧ j < words.length ∧ c = mkChunk words cs j)
        ∧ (∀ c ∈ acc, c ∈ r)
        ∧ ∀ j w, i ≤ j → words.get? j = some w → w ≠ [] → trimChars w = w →
            ∃ c ∈ r, w <:+: c := by
  intro fuel
  induction fuel with
  | zero =>
      intro i acc hbound
      have hge : ¬(i < words.length) := by omega
      refine ⟨acc, chunkLoop_stop words cs ov 0 i acc hge, ?_, ?_, ?_⟩
      · intro c hc
        exact Or.inl hc
      · intro c hc
        exact hc
      · intro j w hij hw hne htr
        exfalso
        obtain ⟨hjl, _⟩ := List.get?_eq_some.mp hw
        omega
  | succ fuel2 ih =>
      intro i acc hbound
      by_cases hlt : i < words.length
      · obtain ⟨r, hr, horig, hsub, hcov⟩ :=
          ih (i + (cs - ov))
            (if (mkChunk words cs i).isEmpty then acc
             else acc ++ [mkChunk words cs i]) (by omega)
        refine ⟨r, ?_, ?_, ?_, ?_⟩
        · rw [chunkLoop_succ words cs ov fuel2 i acc hlt]
          exact hr
        · intro c hc
          rcases horig c hc with hacc | ⟨j, hij, hjl, hcj⟩
          · by_cases hemp : (mkChunk words cs i).isEmpty
            · rw [if_pos hemp] at hacc
              exact Or.inl hacc
            · rw [if_neg hemp] at hacc
              rcases List.mem_append.mp hacc with h | h
              · exact Or.inl h
              · exact Or.inr ⟨i, le_refl i, hlt, List.mem_singleton.mp h⟩
          · exact Or.inr ⟨j, by omega, hjl, hcj⟩
        · intro c hc
          apply hsub
          by_cases hemp : (mkChunk words cs i).isEmpty
          · rw [if_pos hemp]
            exact hc
          · rw [if_neg hemp]
            exact List.mem_append_left _ hc
        · intro j w hij hw hne htr
          by_cases hjge : i + (cs - ov) ≤ j
          · exact hcov j w hjge hw hne htr
          · have hjcs : j < i + cs := by omega
            obtain ⟨hjl, _⟩ := List.get?_eq_some.mp hw
            have hmemslice : w ∈ (words.drop i).take cs :=
              mem_slice words cs i j w hij hjcs hw
            have hinfix : w <:+: mkChunk words cs i :=
              infix_trimChars hne htr
                (mem_joinSp ((words.drop i).take cs) w hmemslice)
            have hchunkne : ¬(mkChunk words cs i).isEmpty := by
              intro hemp
              obtain ⟨a, b, hab⟩ := hinfix
              rw [List.isEmpty_iff] at hemp
              rw [hemp] at hab
              rcases List.append_eq_nil.mp hab with ⟨hab2, _⟩
              rcases List.append_eq_nil.mp hab2 with ⟨_, hwnil⟩
              exact hne hwnil
            refine ⟨mkChunk words cs i, ?_, hinfix⟩
            apply hsub
            rw [if_neg hchunkne]
            exact List.mem_append_right _ (List.mem_singleton.mpr rfl)
      · refine ⟨acc, chunkLoop_stop words cs ov (fuel2 + 1) i acc hlt, ?_, ?_, ?_⟩
        · intro c hc
          exact Or.inl hc
        · intro c hc
          exact hc
        · intro j w hij hw hne htr
          exfalso
          obtain ⟨hjl, _⟩ := List.get?_eq_some.mp hw
          omega

/-- C9: whenever `0 <= overlap < chunkSize`, the `chunkText` loop terminates
within `words.length` iterations; every returned chunk is the trimmed
space-join of a slice of at most `chunkSize` consecutive words; and every
word of the input (a non-empty, trim-invariant segment of the space split)
appears, as a contiguous substring, in at least one returned chunk. -/
theorem C9_chunkText_terminates_bounded_covers (text : List Char)
    (cs ov : Nat) (hov : ov < cs) :
    ∃ chunks, chunkText text cs ov = some chunks
      ∧ (∀ c ∈ chunks, ∃ j, j < (splitSp text).length
          ∧ c = mkChunk (splitSp text) cs j
          ∧ (((splitSp text).drop j).take cs).length ≤ cs)
      ∧ ∀ w ∈ splitSp text, w ≠ [] → trimChars w = w →
          ∃ c ∈ chunks, w <:+: c := by
  obtain ⟨r, hr, horig, _, hcov⟩ :=
    chunkLoop_spec (splitSp text) cs ov (by omega) (splitSp text).length 0 []
      (by omega)
  refine ⟨r, ?_, ?_, ?_⟩
  · unfold chunkText
    exact hr
  · intro c hc
    rcases horig c hc with h | ⟨j, _, hjl, hcj⟩
    · cases h
    · exact ⟨j, hjl, hcj, List.length_take_le cs _⟩
  · intro w hw hne htr
    obtain ⟨j, hj⟩ := List.get?_of_mem hw
    exact hcov j w (Nat.zero_le j) hj hne htr

theorem C9_chunkText_terminates_bounded_covers_witness :
    ∃ chunks, chunkText ("porcelain dinner set".toList) 2 1 = some chunks
      ∧ (∀ c ∈ chunks, ∃ j, j < (splitSp ("porcelain dinner set".toList)).length
          ∧ c = mkChunk (splitSp ("porcelain dinner set".toList)) 2 j
          ∧ (((splitSp ("porcelain dinner set".toList)).drop j).take 2).length ≤ 2)
      ∧ ∀ w ∈ splitSp ("porcelain dinner set".toList), w ≠ [] → trimChars w = w →
          ∃ c ∈ chunks, w <:+: c :=
  C9_chunkText_terminates_bounded_covers ("porcelain dinner set".toList) 2 1
    (by omega)
